import Mathlib

/-!
Shallow embedding of the batched OpenGL scene renderer
(`src/lib.rs`, `src/font.rs` of `tuber_graphics_opengl`), together with
theorems settling the specification claims about it.

Rust `f32` values are modelled as exact rationals (`ℚ`): the tessellation
code only copies values, negates, adds and divides by the constant
atlas size 1024, so the rational model mirrors the data flow of the source.
Machine integers (`u32` / `GLuint`) are modelled as `Nat` with an explicit
`% 2 ^ 32` at the points where the source performs `u32` arithmetic or casts.
-/

namespace TuberGL

/-- `gl::TRIANGLES` (`GLenum` value `0x0004`). -/
def GL_TRIANGLES : Nat := 4

/-- `gl::LINES` (`GLenum` value `0x0001`). -/
def GL_LINES : Nat := 1

/-- Modulus of the `u32` / `GLuint` machine-integer type. -/
def u32Mod : Nat := 2 ^ 32

/-- `Vertex` (lib.rs:507-511): position, color, texture coordinates. -/
structure Vertex where
  position : ℚ × ℚ × ℚ
  color : ℚ × ℚ × ℚ
  texture_coordinates : ℚ × ℚ
deriving DecidableEq

/-- `Vertex::with_values` (lib.rs:515-523). -/
def Vertex.with_values (position color : ℚ × ℚ × ℚ) (texture_coordinates : ℚ × ℚ) : Vertex :=
  { position := position, color := color, texture_coordinates := texture_coordinates }

/-- `MeshAttributes` (lib.rs:296-301).  Field order matters: the Rust
`derive(Ord, PartialOrd)` compares `texture_identifier`, then
`font_identifier`, then `draw_mode`, in declaration order. -/
structure MeshAttributes where
  texture_identifier : Option String
  font_identifier : Option String
  draw_mode : Nat
deriving DecidableEq

/-- `MeshAttributes::defaults` (lib.rs:304-310). -/
def MeshAttributes.defaults : MeshAttributes :=
  { texture_identifier := none, font_identifier := none, draw_mode := GL_TRIANGLES }

/-- `MeshAttributesBuilder::new().texture(id).build()` (lib.rs:260-294). -/
def MeshAttributes.forTexture (texture_identifier : String) : MeshAttributes :=
  { texture_identifier := some texture_identifier, font_identifier := none,
    draw_mode := GL_TRIANGLES }

/-- `MeshAttributesBuilder::new().font(id).build()` (lib.rs:260-294). -/
def MeshAttributes.forFont (font_identifier : String) : MeshAttributes :=
  { texture_identifier := none, font_identifier := some font_identifier,
    draw_mode := GL_TRIANGLES }

/-- `MeshAttributesBuilder::new().draw_mode(m).build()` (lib.rs:260-294). -/
def MeshAttributes.forDrawMode (draw_mode : Nat) : MeshAttributes :=
  { texture_identifier := none, font_identifier := none, draw_mode := draw_mode }

/-- `Mesh` (lib.rs:439-444): CPU-side vertex and index lists plus attributes. -/
structure Mesh where
  vertices : List Vertex
  indices : List Nat
  attributes : MeshAttributes
deriving DecidableEq

/-- `RenderBatch` (lib.rs:326-334).  The GPU buffer objects are modelled by
the lists of values the source writes into them: `add_mesh` always maps the
buffer at byte offset `vertex_count * size_of::<Vertex>()`
(resp. `index_count * size_of::<GLuint>()`), i.e. directly after everything
written so far, so the mapped writes are exactly list appends. -/
structure RenderBatch where
  mesh_attributes : MeshAttributes
  vertex_data : List Vertex
  index_data : List Nat
  vertex_count : Nat
  index_count : Nat
  last_index : Nat
deriving DecidableEq

/-- `RenderBatch::MAX_BATCH_SIZE` (lib.rs:337): the byte size passed to
`BufferObject::with_size` for both the vertex and the index buffer. -/
def MAX_BATCH_SIZE : Nat := 100000

/-- Byte size of `Vertex` (8 `f32` fields: 3 position + 3 color + 2 uv). -/
def VERTEX_BYTES : Nat := 32

/-- `RenderBatch::new` (lib.rs:339-371): fresh cursors and tracker; the GL
buffer allocation and attribute setup have no CPU-visible content. -/
def RenderBatch.new (mesh_attributes : MeshAttributes) : RenderBatch :=
  { mesh_attributes := mesh_attributes, vertex_data := [], index_data := [],
    vertex_count := 0, index_count := 0, last_index := 0 }

/-- `RenderBatch::add_mesh` (lib.rs:377-427).  Vertices are appended at the
vertex cursor.  Indices are rebased: the source captures
`let last_index = self.last_index;` before the loop, computes
`index_offset = if last_index == 0 { 0 } else { last_index + 1 }` and writes
`*index + index_offset as u32` (a `u32` addition, hence the `% 2 ^ 32`),
updating `self.last_index` whenever the written value exceeds
`self.last_index as u32`.  There is no capacity check anywhere. -/
def RenderBatch.add_mesh (b : RenderBatch) (m : Mesh) : RenderBatch :=
  let index_offset : Nat := if b.last_index = 0 then 0 else (b.last_index + 1) % u32Mod
  let written : List Nat := m.indices.map (fun i => (i % u32Mod + index_offset) % u32Mod)
  { b with
    vertex_data := b.vertex_data ++ m.vertices,
    index_data := b.index_data ++ written,
    vertex_count := b.vertex_count + m.vertices.length,
    index_count := b.index_count + m.indices.length,
    last_index := written.foldl (fun acc w => if acc % u32Mod < w then w else acc) b.last_index }

/-- A batch obtained from `RenderBatch::new` by a sequence of
`add_mesh` calls, in order. -/
def buildBatch (d : MeshAttributes) (ms : List Mesh) : RenderBatch :=
  ms.foldl RenderBatch.add_mesh (RenderBatch.new d)

/-! ### External collaborator payload types

The `tuber` scene-node payloads (`Rectangle`, `Sprite`, `Line`, `Text`)
belong to the external `tuber` crate; only their accessors used by
`lib.rs` appear in the source.  They are modelled as plain records with
exactly those accessors, following the spec's data model (§4.1, §6);
`Line` additionally carries the color the spec lists in its payload
(`Line(p0, p1, color)`), which the source never reads. -/

/-- `tuber::graphics::Rectangle`: accessors `width()`, `height()`, `color()`. -/
structure Rectangle where
  width : ℚ
  height : ℚ
  color : ℚ × ℚ × ℚ

/-- `tuber::graphics::Sprite`: accessors `width()`, `height()`,
`texture_identifier()`. -/
structure Sprite where
  width : ℚ
  height : ℚ
  texture_identifier : String

/-- `tuber::graphics::Line`: accessors `first_point()`, `second_point()`;
the `color` field comes from the spec's `Line(p0, p1, color)` payload and
is never read by the source. -/
structure Line where
  first_point : ℚ × ℚ × ℚ
  second_point : ℚ × ℚ × ℚ
  color : ℚ × ℚ × ℚ

/-- `tuber::graphics::Text`: accessors `text()` (iterated as characters)
and `font_identifier()`. -/
structure Text where
  text : List Char
  font_identifier : String

/-- `FontCharacterMetadata` (font.rs:80-103). -/
structure FontCharacterMetadata where
  x_coordinate : ℚ
  y_coordinate : ℚ
  width : ℚ
  height : ℚ
  x_offset : ℚ
  y_offset : ℚ
  x_advance : ℚ
deriving DecidableEq

/-- `FontMetadata` (font.rs:59-61): `HashMap<char, FontCharacterMetadata>`,
modelled as an association list where the most recent insertion wins. -/
structure FontMetadata where
  characters : List (Char × FontCharacterMetadata)

/-- `FontMetadata::new` (font.rs:64-68). -/
def FontMetadata.new : FontMetadata := { characters := [] }

/-- `FontMetadata::add_character` (font.rs:70-73): `HashMap::insert`. -/
def FontMetadata.add_character (fm : FontMetadata) (c : Char)
    (metadata : FontCharacterMetadata) : FontMetadata :=
  { characters := (c, metadata) :: fm.characters }

/-- `FontMetadata::character` (font.rs:75-77): `HashMap::get`. -/
def FontMetadata.character (fm : FontMetadata) (c : Char) :
    Option FontCharacterMetadata :=
  (fm.characters.find? (fun p => p.1 = c)).map (fun p => p.2)

/-- CPU-visible state of `GLSceneRenderer` (lib.rs:36-41): the pending mesh
list and the pending batch list (the resource stores are passed explicitly
where needed). -/
structure GLSceneRenderer where
  pending_meshes : List Mesh
  pending_batches : List RenderBatch

/-- `GLSceneRenderer::render_rectangle_node` (lib.rs:118-134). -/
def render_rectangle_node (s : GLSceneRenderer) (rectangle : Rectangle) : GLSceneRenderer :=
  let c := rectangle.color
  let mesh : Mesh :=
    { attributes := MeshAttributes.defaults,
      vertices :=
        [Vertex.with_values (0, 0, 0) c (0, 0),
         Vertex.with_values (0, rectangle.height, 0) c (0, 1),
         Vertex.with_values (rectangle.width, rectangle.height, 0) c (1, 1),
         Vertex.with_values (rectangle.width, 0, 0) c (1, 0)],
      indices := [0, 1, 2, 2, 0, 3] }
  { s with pending_meshes := s.pending_meshes ++ [mesh] }

/-- `GLSceneRenderer::render_sprite_node` (lib.rs:136-154). -/
def render_sprite_node (s : GLSceneRenderer) (sprite : Sprite) : GLSceneRenderer :=
  let mesh : Mesh :=
    { attributes := MeshAttributes.forTexture sprite.texture_identifier,
      vertices :=
        [Vertex.with_values (0, 0, 0) (1, 1, 1) (0, 0),
         Vertex.with_values (0, sprite.height, 0) (1, 1, 1) (0, 1),
         Vertex.with_values (sprite.width, sprite.height, 0) (1, 1, 1) (1, 1),
         Vertex.with_values (sprite.width, 0, 0) (1, 1, 1) (1, 0)],
      indices := [0, 1, 2, 2, 0, 3] }
  { s with pending_meshes := s.pending_meshes ++ [mesh] }

/-- `GLSceneRenderer::render_line_node` (lib.rs:197-213). -/
def render_line_node (s : GLSceneRenderer) (line : Line) : GLSceneRenderer :=
  let mesh : Mesh :=
    { attributes := MeshAttributes.forDrawMode GL_LINES,
      vertices :=
        [Vertex.with_values line.first_point (1, 1, 1) (0, 0),
         Vertex.with_values line.second_point (1, 1, 1) (0, 0)],
      indices := [0, 1] }
  { s with pending_meshes := s.pending_meshes ++ [mesh] }

/-- The per-character loop of `GLSceneRenderer::render_text_node`
(lib.rs:160-194): produces the mesh list, or `none` when
`font.metadata().character(c).unwrap()` panics on a missing glyph. -/
def renderTextChars (fm : FontMetadata) (font_identifier : String) :
    List Char → ℚ → Option (List Mesh)
  | [], _ => some []
  | c :: rest, cursor_offset =>
    match fm.character c with
    | none => none
    | some character_metadata =>
      let tw : ℚ := 1024
      let th : ℚ := 1024
      let x := character_metadata.x_coordinate / tw
      let y := -character_metadata.y_coordinate / th
      let y_off := -character_metadata.y_offset / th
      let w := character_metadata.width / tw
      let h := -character_metadata.height / th
      let mesh : Mesh :=
        { attributes := MeshAttributes.forFont font_identifier,
          vertices :=
            [Vertex.with_values (cursor_offset, y_off, 0) (1, 1, 1) (x, y),
             Vertex.with_values (cursor_offset, y_off + h, 0) (1, 1, 1) (x, y + h),
             Vertex.with_values (cursor_offset + w, y_off + h, 0) (1, 1, 1) (x + w, y + h),
             Vertex.with_values (cursor_offset + w, y_off, 0) (1, 1, 1) (x + w, y)],
          indices := [0, 1, 2, 2, 0, 3] }
      (renderTextChars fm font_identifier rest (cursor_offset + w)).map (fun ms => mesh :: ms)

/-- `GLSceneRenderer::render_text_node` (lib.rs:156-195), given the font
already fetched from the store; the cursor starts at `0.0`. -/
def render_text_node (s : GLSceneRenderer) (fm : FontMetadata) (text : Text) :
    Option GLSceneRenderer :=
  (renderTextChars fm text.font_identifier text.text 0).map
    (fun ms => { s with pending_meshes := s.pending_meshes ++ ms })

/-! ### The derived ordering on `MeshAttributes`

Rust's `#[derive(Ord, PartialOrd)]` on `MeshAttributes` (lib.rs:296)
compares the fields lexicographically in declaration order:
`texture_identifier`, then `font_identifier`, then `draw_mode`.
`Option<T>` orders `None` before `Some`, `String` compares its UTF-8
bytes lexicographically (equivalently, scalar values), and `GLenum`
(`u32`) compares numerically. -/

/-- Numeric comparison (`u32::cmp`). -/
def cmpNat (a b : Nat) : Ordering :=
  if a < b then Ordering.lt else if a = b then Ordering.eq else Ordering.gt

/-- `char::cmp`: by scalar value. -/
def cmpChar (a b : Char) : Ordering := cmpNat a.toNat b.toNat

/-- Lexicographic comparison of character lists (`str::cmp` on scalar
values, which agrees with Rust's UTF-8 byte order). -/
def cmpCharList : List Char → List Char → Ordering
  | [], [] => Ordering.eq
  | [], _ :: _ => Ordering.lt
  | _ :: _, [] => Ordering.gt
  | a :: as, b :: bs => (cmpChar a b).then (cmpCharList as bs)

/-- `String::cmp`. -/
def cmpString (a b : String) : Ordering := cmpCharList a.data b.data

/-- `Option<String>::cmp`: `None` sorts before `Some`. -/
def cmpOptString : Option String → Option String → Ordering
  | none, none => Ordering.eq
  | none, some _ => Ordering.lt
  | some _, none => Ordering.gt
  | some a, some b => cmpString a b

/-- The derived `MeshAttributes::cmp` (lib.rs:296-301): declaration-order
lexicographic comparison — `texture_identifier`, then `font_identifier`,
then `draw_mode`. -/
def MeshAttributes.cmp (a b : MeshAttributes) : Ordering :=
  (cmpOptString a.texture_identifier b.texture_identifier).then
    ((cmpOptString a.font_identifier b.font_identifier).then
      (cmpNat a.draw_mode b.draw_mode))

/-- The non-strict order used to sort meshes:
`a.attributes() <= b.attributes()` under the derived `Ord`. -/
def meshLe (a b : Mesh) : Prop :=
  MeshAttributes.cmp a.attributes b.attributes ≠ Ordering.gt

instance : DecidableRel meshLe := fun a b => by
  unfold meshLe; infer_instance

/-- `GLSceneRenderer::sort_meshes` (lib.rs:73-75):
`pending_meshes.sort_by_key(|mesh| mesh.attributes())`.  Rust's
`sort_by_key` is a stable sort by the derived `Ord`; it is modelled by
insertion sort with `meshLe`, which is also a stable sort by that key. -/
def sort_meshes (s : GLSceneRenderer) : GLSceneRenderer :=
  { s with pending_meshes := s.pending_meshes.insertionSort meshLe }

/-- One step of the loop of `GLSceneRenderer::batch_meshes` (lib.rs:79-89):
if no batch is open or the last (open) batch's attributes differ from the
mesh's, push a new batch seeded with this mesh; otherwise add the mesh to
the last batch. -/
def batchFold (bs : List RenderBatch) (mesh : Mesh) : List RenderBatch :=
  match bs.getLast? with
  | none => bs ++ [(RenderBatch.new mesh.attributes).add_mesh mesh]
  | some last =>
    if last.mesh_attributes ≠ mesh.attributes then
      bs ++ [(RenderBatch.new mesh.attributes).add_mesh mesh]
    else
      bs.dropLast ++ [last.add_mesh mesh]

/-- `GLSceneRenderer::batch_meshes` (lib.rs:78-92): folds the pending meshes
into the pending batch list, then clears the pending meshes. -/
def batch_meshes (s : GLSceneRenderer) : GLSceneRenderer :=
  { s with
    pending_meshes := [],
    pending_batches := s.pending_meshes.foldl batchFold s.pending_batches }

/-! ### Scene graph traversal -/

/-- The payload variants of `tuber::scene::NodeValue` handled by
`render_scene_node` (lib.rs:56-62); `Other` stands for every variant that
falls into the catch-all `_` arm. -/
inductive NodeValue where
  | RectangleNode (rectangle : Rectangle)
  | LineNode (line : Line)
  | SpriteNode (sprite : Sprite)
  | TextNode (text : Text)
  | Other

/-- `tuber::scene::SceneNode` (external): identifier, payload, children.
Children are references to nodes; they are modelled as indices into the
scene's node store so that sharing and cycles are representable. -/
structure SceneNode where
  identifier : String
  value : NodeValue
  children : List Nat

/-- `tuber::scene::SceneGraph` (external): the node store and the root
reference. -/
structure SceneGraph where
  nodes : List SceneNode
  root : Nat

/-- `GLSceneRenderer::render_scene_node` (lib.rs:55-63).  The font store is
passed as a lookup (`ResourceStore::get`); a text node whose font is absent
panics at the `unwrap` (lib.rs:158), as does a missing glyph (lib.rs:162);
both are modelled as `none`.  The catch-all arm only prints a message. -/
def render_scene_node (s : GLSceneRenderer) (font_store : String → Option FontMetadata)
    (scene_node : SceneNode) : Option GLSceneRenderer :=
  match scene_node.value with
  | NodeValue.RectangleNode rectangle => some (render_rectangle_node s rectangle)
  | NodeValue.LineNode line => some (render_line_node s line)
  | NodeValue.SpriteNode sprite => some (render_sprite_node s sprite)
  | NodeValue.TextNode text =>
    match font_store text.font_identifier with
    | some fm => render_text_node s fm text
    | none => none
  | NodeValue.Other => some s

/-- The traversal loop of `render_scene` (lib.rs:220-233), instrumented to
return the sequence of nodes passed to `render_scene_node`: an explicit
stack (`Vec::pop` takes the head here, so pushing the children of a node
prepends them reversed, the last child ending on top) and a visited set of
node identifiers.  `fuel` bounds the number of loop iterations; the claims
proved below hold for every fuel value. -/
def renderSceneVisits (g : SceneGraph) :
    Nat → List Nat → List String → List SceneNode
  | 0, _, _ => []
  | _ + 1, [], _ => []
  | fuel + 1, r :: stack, visited =>
    match g.nodes.get? r with
    | none => renderSceneVisits g fuel stack visited
    | some node =>
      if node.identifier ∈ visited then
        renderSceneVisits g fuel stack visited
      else
        node :: renderSceneVisits g fuel (node.children.reverse ++ stack)
          (node.identifier :: visited)

/-- `render_scene` (lib.rs:217-236) seeds the stack with the scene root and
the visited set empty. -/
def render_scene_visited_nodes (g : SceneGraph) (fuel : Nat) : List SceneNode :=
  renderSceneVisits g fuel [g.root] []

/-! ### Definitions taken from the claims' wording

These definitions follow the words of the specification claims (not the
source); they exist only to be compared against the source-derived
definitions above. -/

/-- Modelled from the spec's claim about index rebasing: each mesh's indices
are rebased by an offset that is 0 for the first mesh and, for every later
mesh, one more than the highest index value written to the batch so far. -/
def specRebasedIndices (meshIndexLists : List (List Nat)) : List Nat :=
  meshIndexLists.foldl
    (fun acc indices =>
      let offset := if acc.isEmpty then 0 else acc.foldl Nat.max 0 + 1
      acc ++ indices.map (fun i => i + offset))
    []

/-- Modelled from the spec's claim about the sort order: compare `draw_mode`
first, then `texture_identifier`, then `font_identifier`, `None` sorting
before `Some`. -/
def specAttrCmp (a b : MeshAttributes) : Ordering :=
  (cmpNat a.draw_mode b.draw_mode).then
    ((cmpOptString a.texture_identifier b.texture_identifier).then
      (cmpOptString a.font_identifier b.font_identifier))

/-- The non-strict mesh order induced by `specAttrCmp`. -/
def specMeshLe (a b : Mesh) : Prop :=
  specAttrCmp a.attributes b.attributes ≠ Ordering.gt

instance : DecidableRel specMeshLe := fun a b => by
  unfold specMeshLe; infer_instance

/-- Cumulative scaled sums: `cumScaled q [a, b, ...] = [q, q + a/1024, ...]`. -/
def cumScaled (cursor : ℚ) : List ℚ → List ℚ
  | [] => []
  | a :: rest => cursor :: cumScaled (cursor + a / 1024) rest

/-- Modelled from the spec's claim about text layout: the successive cursor
offsets are the cumulative sums of each glyph's scaled advance
(`x_advance / 1024`). -/
def specCursorOffsets (advances : List ℚ) : List ℚ :=
  cumScaled 0 advances

/-- The horizontal cursor offset at which a character quad was emitted: the
x coordinate of its first vertex. -/
def meshCursorX (m : Mesh) : ℚ :=
  match m.vertices with
  | [] => 0
  | v :: _ => v.position.1

/-- A font metadata map built by a sequence of `add_character` calls. -/
def buildFontMetadata (adds : List (Char × FontCharacterMetadata)) : FontMetadata :=
  adds.foldl (fun fm p => fm.add_character p.1 p.2) FontMetadata.new

/-- A quad mesh as produced by the tessellators: 4 vertices and indices
`[0, 1, 2, 2, 0, 3]`. -/
def quadMesh : Mesh :=
  { attributes := MeshAttributes.defaults,
    vertices :=
      [Vertex.with_values (0, 0, 0) (1, 1, 1) (0, 0),
       Vertex.with_values (0, 1, 0) (1, 1, 1) (0, 1),
       Vertex.with_values (1, 1, 0) (1, 1, 1) (1, 1),
       Vertex.with_values (1, 0, 0) (1, 1, 1) (1, 0)],
    indices := [0, 1, 2, 2, 0, 3] }

/-- A degenerate one-vertex mesh whose only index is 0. -/
def meshIdx0 : Mesh :=
  { attributes := MeshAttributes.defaults,
    vertices := [Vertex.with_values (0, 0, 0) (1, 1, 1) (0, 0)],
    indices := [0] }

/-- Concrete glyph metadata whose `width` (10) differs from its `x_advance`
(20). -/
def mdA : FontCharacterMetadata :=
  { x_coordinate := 0, y_coordinate := 0, width := 10, height := 12,
    x_offset := 0, y_offset := 2, x_advance := 20 }

/-- Concrete glyph metadata whose `width` (30) differs from its `x_advance`
(40). -/
def mdB : FontCharacterMetadata :=
  { x_coordinate := 16, y_coordinate := 0, width := 30, height := 12,
    x_offset := 0, y_offset := 2, x_advance := 40 }

/-- Concrete glyph metadata whose `width` (5) differs from its `x_advance`
(7). -/
def mdC : FontCharacterMetadata :=
  { x_coordinate := 32, y_coordinate := 0, width := 5, height := 12,
    x_offset := 0, y_offset := 2, x_advance := 7 }

/-- A font holding glyphs for the characters of `"abc"`. -/
def fmABC : FontMetadata :=
  buildFontMetadata [('a', mdA), ('b', mdB), ('c', mdC)]

/-- The 3-character text node `"abc"` using font `"f"`. -/
def textABC : Text :=
  { text := ['a', 'b', 'c'], font_identifier := "f" }

/-- An (empty) mesh with no texture and `draw_mode = gl::TRIANGLES`. -/
def meshTri : Mesh :=
  { vertices := [], indices := [], attributes := MeshAttributes.defaults }

/-- An (empty) mesh with texture `"t"` and `draw_mode = gl::LINES`. -/
def meshTexLines : Mesh :=
  { vertices := [], indices := [],
    attributes := { texture_identifier := some "t", font_identifier := none,
                    draw_mode := GL_LINES } }

/-- Concrete mesh #1 with the default configuration. -/
def meshC1a : Mesh :=
  { vertices := [Vertex.with_values (1, 0, 0) (1, 1, 1) (0, 0)],
    indices := [0], attributes := MeshAttributes.defaults }

/-- Concrete mesh #2 with the default configuration. -/
def meshC1b : Mesh :=
  { vertices := [Vertex.with_values (2, 0, 0) (1, 1, 1) (0, 0)],
    indices := [0], attributes := MeshAttributes.defaults }

/-- Concrete mesh #3 with a texture configuration. -/
def meshC2c : Mesh :=
  { vertices := [Vertex.with_values (3, 0, 0) (1, 1, 1) (0, 0)],
    indices := [0], attributes := MeshAttributes.forTexture "t" }

/-- Concrete mesh #4 with the default configuration. -/
def meshC1d : Mesh :=
  { vertices := [Vertex.with_values (4, 0, 0) (1, 1, 1) (0, 0)],
    indices := [0], attributes := MeshAttributes.defaults }

/-! ## Theorems -/

/-- The `u32`-truncating maximum tracker of `add_mesh` agrees with
`Nat.max` when everything in sight is below `2 ^ 32`. -/
theorem foldl_tracker_eq_max :
    ∀ (ws : List Nat) (a : Nat), a < u32Mod → (∀ w ∈ ws, w < u32Mod) →
      ws.foldl (fun acc w => if acc % u32Mod < w then w else acc) a =
        ws.foldl Nat.max a ∧ ws.foldl Nat.max a < u32Mod := by
  intro ws
  induction ws with
  | nil => intro a ha _; exact ⟨rfl, ha⟩
  | cons w ws ih =>
    intro a ha hws
    have hw : w < u32Mod := hws w (List.mem_cons_self w ws)
    have hmax : Nat.max a w < u32Mod := Nat.max_lt.mpr ⟨ha, hw⟩
    have hstep : (if a % u32Mod < w then w else a) = Nat.max a w := by
      rw [Nat.mod_eq_of_lt ha]
      simp only [Nat.max]
      split
      next h => exact (sup_eq_right.mpr (Nat.le_of_lt h)).symm
      next h => exact (sup_eq_left.mpr (Nat.le_of_not_lt h)).symm
    have := ih (Nat.max a w) hmax (fun x hx => hws x (List.mem_cons_of_mem _ hx))
    simpa [hstep] using this

/-- `add_mesh` preserves the invariant that `last_index` is exactly the
maximum index value written to the batch so far (and stays below `2^32`). -/
theorem add_mesh_preserves_last_index_inv (b : RenderBatch) (m : Mesh)
    (hlt : b.last_index < u32Mod)
    (hinv : b.last_index = b.index_data.foldl Nat.max 0) :
    (b.add_mesh m).last_index < u32Mod ∧
      (b.add_mesh m).last_index = (b.add_mesh m).index_data.foldl Nat.max 0 := by
  have hww : ∀ w ∈ m.indices.map
      (fun i => (i % u32Mod +
        (if b.last_index = 0 then 0 else (b.last_index + 1) % u32Mod)) % u32Mod),
      w < u32Mod := by
    intro w hw
    rcases List.mem_map.mp hw with ⟨i, _, rfl⟩
    exact Nat.mod_lt _ (by norm_num [u32Mod])
  have h := foldl_tracker_eq_max _ b.last_index hlt hww
  refine ⟨?_, ?_⟩
  · simp only [RenderBatch.add_mesh]
    rw [h.1]
    exact h.2
  · simp only [RenderBatch.add_mesh]
    rw [h.1, List.foldl_append, ← hinv]

/-- The `last_index` invariant for every batch built from `RenderBatch::new`
by `add_mesh` calls: it is exactly the highest index value written so far
(`0` when none), and below `2^32`. -/
theorem buildBatch_last_index_inv (d : MeshAttributes) (ms : List Mesh) :
    (buildBatch d ms).last_index < u32Mod ∧
      (buildBatch d ms).last_index = (buildBatch d ms).index_data.foldl Nat.max 0 := by
  rw [buildBatch]
  induction ms using List.reverseRecOn with
  | nil => exact ⟨by norm_num [RenderBatch.new, u32Mod], rfl⟩
  | append_singleton ms m ih =>
    rw [List.foldl_append, List.foldl_cons, List.foldl_nil]
    exact add_mesh_preserves_last_index_inv _ m ih.1 ih.2

/-- C1 (amended): `add_mesh` rebases every index of the incoming mesh by an
offset that is `0` whenever the highest index value written to the batch so
far is `0` (in particular for the first mesh, but also after meshes whose
indices are all `0`), and otherwise equals one more than the highest index
value written so far; the hypothesis rules out `u32` wrap-around. -/
theorem add_mesh_rebases_by_highest_index (d : MeshAttributes) (ms : List Mesh) (m : Mesh)
    (hm : ∀ i ∈ m.indices,
      i + (buildBatch d ms).index_data.foldl Nat.max 0 + 1 < u32Mod) :
    ((buildBatch d ms).add_mesh m).index_data =
      (buildBatch d ms).index_data ++
        m.indices.map (fun i => i +
          (if (buildBatch d ms).index_data.foldl Nat.max 0 = 0 then 0
           else (buildBatch d ms).index_data.foldl Nat.max 0 + 1)) := by
  have hinv := (buildBatch_last_index_inv d ms).2
  simp only [RenderBatch.add_mesh]
  congr 1
  apply List.map_congr_left
  intro i hi
  have hbound := hm i hi
  rw [← hinv] at hbound ⊢
  have hi32 : i < u32Mod := by omega
  by_cases h0 : (buildBatch d ms).last_index = 0
  · simp [h0, Nat.mod_eq_of_lt hi32, Nat.mod_eq_of_lt (show i + 0 < u32Mod by omega)]
  · have hoff : (buildBatch d ms).last_index + 1 < u32Mod := by omega
    rw [if_neg h0, if_neg h0, Nat.mod_eq_of_lt hi32, Nat.mod_eq_of_lt hoff,
      Nat.mod_eq_of_lt (by omega)]

/-- C1 (witness): the spec's own example — a first quad with indices
`[0,1,2,2,0,3]`, then a second identical quad — satisfies the hypothesis
and yields combined indices `[0,1,2,2,0,3,4,5,6,6,4,7]`. -/
theorem add_mesh_rebases_witness :
    (∀ i ∈ quadMesh.indices,
      i + (buildBatch MeshAttributes.defaults [quadMesh]).index_data.foldl Nat.max 0 + 1
        < u32Mod) ∧
    ((buildBatch MeshAttributes.defaults [quadMesh]).add_mesh quadMesh).index_data =
      [0, 1, 2, 2, 0, 3, 4, 5, 6, 6, 4, 7] := by
  refine ⟨by decide, ?_⟩
  rw [add_mesh_rebases_by_highest_index MeshAttributes.defaults [quadMesh] quadMesh
    (by decide)]
  decide

/-- C1 (counterexample): the claim's offset rule fails on a batch whose
first mesh has indices `[0]`: the highest index written so far is `0`, so
the claim mandates offset `1` for the second mesh, but the code uses
offset `0` and writes `[0, 0]` instead of `[0, 1]`. -/
theorem index_rebase_offset_counterexample :
    (buildBatch MeshAttributes.defaults [meshIdx0, meshIdx0]).index_data = [0, 0] ∧
    specRebasedIndices [meshIdx0.indices, meshIdx0.indices] = [0, 1] ∧
    (buildBatch MeshAttributes.defaults [meshIdx0, meshIdx0]).index_data ≠
      specRebasedIndices [meshIdx0.indices, meshIdx0.indices] := by
  exact ⟨by decide, by decide, by decide⟩

/-- C5 (counterexample): for `Rectangle(width=2, height=3, color=(1,0,0))`
the produced mesh's texture coordinates are `(0,0), (0,1), (1,1), (1,0)` —
not `(0,0)` on every vertex as the claim states. -/
theorem rectangle_uv_not_all_zero :
    ((render_rectangle_node ⟨[], []⟩ ⟨2, 3, (1, 0, 0)⟩).pending_meshes.map
        (fun m => m.vertices.map Vertex.texture_coordinates)) =
      [[(0, 0), (0, 1), (1, 1), (1, 0)]] ∧
    ¬ ∀ m ∈ (render_rectangle_node ⟨[], []⟩ ⟨2, 3, (1, 0, 0)⟩).pending_meshes,
        ∀ v ∈ m.vertices, v.texture_coordinates = (0, 0) := by
  exact ⟨by decide, by decide⟩

/-- C5 (amended): `render_rectangle_node` appends exactly one mesh, with 4
vertices at `(0,0), (0,h), (w,h), (w,0)`, indices `[0,1,2,2,0,3]`, every
vertex colored with the node color, texture coordinates
`(0,0), (0,1), (1,1), (1,0)` (the quad's corner UVs, not all `(0,0)`), and
the default configuration (`Triangles`, no texture, no font). -/
theorem render_rectangle_node_spec (s : GLSceneRenderer) (r : Rectangle) :
    (render_rectangle_node s r).pending_meshes = s.pending_meshes ++
      [{ attributes := MeshAttributes.defaults,
         vertices :=
           [⟨(0, 0, 0), r.color, (0, 0)⟩,
            ⟨(0, r.height, 0), r.color, (0, 1)⟩,
            ⟨(r.width, r.height, 0), r.color, (1, 1)⟩,
            ⟨(r.width, 0, 0), r.color, (1, 0)⟩],
         indices := [0, 1, 2, 2, 0, 3] }] ∧
    (render_rectangle_node s r).pending_batches = s.pending_batches := by
  exact ⟨rfl, rfl⟩

/-- C9: `render_line_node` appends exactly one mesh with 2 vertices at the
line's endpoints, indices `[0,1]` and configuration `draw_mode = Lines`,
both vertices colored white `(1,1,1)` — the line's color is never read. -/
theorem render_line_node_spec (s : GLSceneRenderer) (line : Line) :
    (render_line_node s line).pending_meshes = s.pending_meshes ++
      [{ attributes := MeshAttributes.forDrawMode GL_LINES,
         vertices :=
           [⟨line.first_point, (1, 1, 1), (0, 0)⟩,
            ⟨line.second_point, (1, 1, 1), (0, 0)⟩],
         indices := [0, 1] }] ∧
    (render_line_node s line).pending_batches = s.pending_batches := by
  exact ⟨rfl, rfl⟩

/-- C10: a scene node whose payload is none of Rectangle, Line, Sprite or
Text (the catch-all arm of `render_scene_node`) leaves the renderer state
unchanged and signals no error. -/
theorem render_scene_node_other_is_noop (s : GLSceneRenderer)
    (font_store : String → Option FontMetadata) (identifier : String)
    (children : List Nat) :
    render_scene_node s font_store ⟨identifier, NodeValue.Other, children⟩ = some s := rfl

/-- `add_mesh` field equations for the vertex side. -/
theorem add_mesh_vertex_fields (b : RenderBatch) (m : Mesh) :
    (b.add_mesh m).vertex_data = b.vertex_data ++ m.vertices ∧
      (b.add_mesh m).vertex_count = b.vertex_count + m.vertices.length ∧
      (b.add_mesh m).index_count = b.index_count + m.indices.length ∧
      (b.add_mesh m).mesh_attributes = b.mesh_attributes := by
  exact ⟨rfl, rfl, rfl, rfl⟩

/-- The vertex cursor of a built batch is the total vertex count added. -/
theorem buildBatch_vertex_count (d : MeshAttributes) (ms : List Mesh) :
    (buildBatch d ms).vertex_count = (ms.map (fun m => m.vertices.length)).sum := by
  rw [buildBatch]
  induction ms using List.reverseRecOn with
  | nil => rfl
  | append_singleton ms m ih =>
    rw [List.foldl_append, List.foldl_cons, List.foldl_nil, List.map_append,
      List.sum_append]
    simp [RenderBatch.add_mesh, ih]

/-- The vertex data of a built batch has one entry per added vertex. -/
theorem buildBatch_vertex_data_length (d : MeshAttributes) (ms : List Mesh) :
    (buildBatch d ms).vertex_data.length = (ms.map (fun m => m.vertices.length)).sum := by
  rw [buildBatch]
  induction ms using List.reverseRecOn with
  | nil => rfl
  | append_singleton ms m ih =>
    rw [List.foldl_append, List.foldl_cons, List.foldl_nil, List.map_append,
      List.sum_append]
    simp [RenderBatch.add_mesh, ih]

/-- C2 (code evaluated at the failing input): a batch filled to exactly the
pre-allocated `MAX_BATCH_SIZE` bytes of vertex data (3125 vertices of 32
bytes) accepts one more mesh without any error: `add_mesh` has no capacity
check and no error path, so the extra vertex is appended and every cursor
advances — the mesh is not rejected and the contents do not stay unchanged. -/
theorem add_mesh_past_capacity_still_appends :
    (buildBatch MeshAttributes.defaults (List.replicate 3125 meshIdx0)).vertex_count *
        VERTEX_BYTES = MAX_BATCH_SIZE ∧
    ((buildBatch MeshAttributes.defaults (List.replicate 3125 meshIdx0)).add_mesh
        meshIdx0).vertex_count * VERTEX_BYTES = MAX_BATCH_SIZE + VERTEX_BYTES ∧
    ((buildBatch MeshAttributes.defaults (List.replicate 3125 meshIdx0)).add_mesh
        meshIdx0).vertex_data =
      (buildBatch MeshAttributes.defaults (List.replicate 3125 meshIdx0)).vertex_data ++
        meshIdx0.vertices ∧
    ((buildBatch MeshAttributes.defaults (List.replicate 3125 meshIdx0)).add_mesh
        meshIdx0).vertex_data ≠
      (buildBatch MeshAttributes.defaults (List.replicate 3125 meshIdx0)).vertex_data := by
  have hcount := buildBatch_vertex_count MeshAttributes.defaults
    (List.replicate 3125 meshIdx0)
  have hone : ((List.replicate 3125 meshIdx0).map (fun m => m.vertices.length)).sum =
      3125 := by
    rw [List.map_replicate, List.sum_replicate, smul_eq_mul]
    rfl
  rw [hone] at hcount
  refine ⟨?_, ?_, rfl, ?_⟩
  · rw [hcount]
    rfl
  · rw [(add_mesh_vertex_fields _ meshIdx0).2.1, hcount]
    rfl
  · intro h
    have hlen := congrArg List.length h
    rw [(add_mesh_vertex_fields _ meshIdx0).1, List.length_append] at hlen
    have hv : meshIdx0.vertices.length = 1 := rfl
    omega

/-- The text loop fails exactly when some character has no glyph metadata. -/
theorem renderTextChars_eq_none_iff (fm : FontMetadata) (fid : String) :
    ∀ (chars : List Char) (cursor : ℚ),
      renderTextChars fm fid chars cursor = none ↔ ∃ c ∈ chars, fm.character c = none := by
  intro chars
  induction chars with
  | nil => intro cursor; simp [renderTextChars]
  | cons c rest ih =>
    intro cursor
    simp only [renderTextChars]
    split
    next h =>
      constructor
      · intro _
        exact ⟨c, List.mem_cons_self c rest, h⟩
      · intro _
        rfl
    next md h =>
      rw [Option.map_eq_none', ih]
      constructor
      · rintro ⟨d, hd, hnone⟩
        exact ⟨d, List.mem_cons_of_mem _ hd, hnone⟩
      · rintro ⟨d, hd, hnone⟩
        rcases List.mem_cons.mp hd with rfl | hd
        · rw [h] at hnone
          exact absurd hnone (by simp)
        · exact ⟨d, hd, hnone⟩

/-- Looking up a character after one `add_character`. -/
theorem character_add_character (fm : FontMetadata) (d c : Char)
    (md : FontCharacterMetadata) :
    (fm.add_character d md).character c =
      if d = c then some md else fm.character c := by
  simp only [FontMetadata.add_character, FontMetadata.character, List.find?]
  by_cases h : d = c
  · simp [h]
  · simp [h]

/-- Glyph lookup on a built font misses exactly the never-added characters. -/
theorem character_buildFontMetadata_eq_none_iff :
    ∀ (adds : List (Char × FontCharacterMetadata)) (fm : FontMetadata) (c : Char),
      ((adds.foldl (fun fm p => fm.add_character p.1 p.2) fm).character c = none) ↔
        (c ∉ adds.map (fun p => p.1) ∧ fm.character c = none) := by
  intro adds
  induction adds with
  | nil => intro fm c; simp
  | cons p rest ih =>
    intro fm c
    simp only [List.foldl_cons, ih, character_add_character, List.map_cons,
      List.mem_cons]
    by_cases h : p.1 = c
    · simp [h]
    · have : ¬ c = p.1 := fun hc => h hc.symm
      simp [h, this]

/-- C6 (amended): for every 3-character text whose characters all have
glyph metadata, tessellation produces exactly 3 meshes sharing the
font-tagged configuration `{draw_mode = Triangles, font = font_id}`, and
the horizontal cursor offsets of the successive quads are the cumulative
sums of each glyph's scaled width (`width / 1024` — not its `x_advance`,
which the code never reads); the offsets increase across any step whose
glyph width is positive. -/
theorem render_text_node_three_chars (s : GLSceneRenderer) (fm : FontMetadata)
    (fid : String) (c1 c2 c3 : Char) (m1 m2 m3 : FontCharacterMetadata)
    (h1 : fm.character c1 = some m1) (h2 : fm.character c2 = some m2)
    (h3 : fm.character c3 = some m3) :
    ∃ ms : List Mesh,
      render_text_node s fm { text := [c1, c2, c3], font_identifier := fid } =
        some { s with pending_meshes := s.pending_meshes ++ ms } ∧
      ms.length = 3 ∧
      (∀ m ∈ ms, m.attributes = MeshAttributes.forFont fid) ∧
      ms.map meshCursorX =
        [0, m1.width / 1024, m1.width / 1024 + m2.width / 1024] ∧
      (0 < m1.width → (0 : ℚ) < m1.width / 1024) ∧
      (0 < m2.width → m1.width / 1024 < m1.width / 1024 + m2.width / 1024) := by
  simp only [render_text_node, renderTextChars, h1, h2, h3, Option.map_some']
  refine ⟨_, rfl, rfl, ?_, ?_, ?_, ?_⟩
  · intro m hm
    simp only [List.mem_cons, List.not_mem_nil, or_false] at hm
    rcases hm with rfl | rfl | rfl <;> rfl
  · simp [meshCursorX, Vertex.with_values]
  · intro hw1
    exact div_pos hw1 (by norm_num)
  · intro hw2
    exact lt_add_of_pos_right _ (div_pos hw2 (by norm_num))

/-- C6 (witness): the concrete font `fmABC` and text `"abc"` satisfy the
glyph-lookup hypotheses, with cursor offsets `[0, 10/1024, 40/1024]`. -/
theorem render_text_node_three_chars_witness :
    fmABC.character 'a' = some mdA ∧ fmABC.character 'b' = some mdB ∧
    fmABC.character 'c' = some mdC ∧
    (∃ ms : List Mesh,
      render_text_node { pending_meshes := [], pending_batches := [] } fmABC textABC =
        some { pending_meshes := [] ++ ms, pending_batches := [] } ∧
      ms.length = 3 ∧
      (∀ m ∈ ms, m.attributes = MeshAttributes.forFont "f") ∧
      ms.map meshCursorX =
        [0, mdA.width / 1024, mdA.width / 1024 + mdB.width / 1024] ∧
      (0 < mdA.width → (0 : ℚ) < mdA.width / 1024) ∧
      (0 < mdB.width → mdA.width / 1024 < mdA.width / 1024 + mdB.width / 1024)) := by
  refine ⟨rfl, rfl, rfl, ?_⟩
  exact render_text_node_three_chars
    { pending_meshes := [], pending_batches := [] } fmABC "f" 'a' 'b' 'c' mdA mdB mdC
    rfl rfl rfl

/-- C6 (counterexample): the claim says the cursor offsets are the
cumulative sums of each glyph's scaled `x_advance`; the code advances by the
scaled `width`.  With glyph widths 10, 30, 5 and advances 20, 40, 7 the code
produces offsets `[0, 10/1024, 40/1024]` while the claim mandates
`[0, 20/1024, 60/1024]`. -/
theorem text_cursor_advance_counterexample :
    ((render_text_node { pending_meshes := [], pending_batches := [] } fmABC
        textABC).map (fun s => s.pending_meshes.map meshCursorX)) =
      some [0, 10 / 1024, 40 / 1024] ∧
    specCursorOffsets [mdA.x_advance, mdB.x_advance, mdC.x_advance] =
      [0, 20 / 1024, 60 / 1024] ∧
    ([0, 10 / 1024, 40 / 1024] : List ℚ) ≠ [0, 20 / 1024, 60 / 1024] := by
  have ha : fmABC.character 'a' = some mdA := rfl
  have hb : fmABC.character 'b' = some mdB := rfl
  have hc : fmABC.character 'c' = some mdC := rfl
  refine ⟨?_, ?_, ?_⟩
  · simp only [render_text_node, textABC, renderTextChars, ha, hb, hc, Option.map_some']
    simp [meshCursorX, Vertex.with_values, mdA, mdB]
    norm_num
  · simp [specCursorOffsets, cumScaled, mdA, mdB, mdC]
    norm_num
  · simp only [ne_eq, List.cons.injEq, not_and]
    intro _ h
    exfalso
    norm_num at h

/-- C7: text tessellation fails (the `unwrap` on the glyph lookup panics)
if and only if some character of the string is absent from the font's
character metadata map; and the glyph lookup itself returns no metadata
exactly for the characters that were never added to the font. -/
theorem text_fails_iff_glyph_missing :
    (∀ (s : GLSceneRenderer) (fm : FontMetadata) (t : Text),
      render_text_node s fm t = none ↔ ∃ c ∈ t.text, fm.character c = none) ∧
    (∀ (adds : List (Char × FontCharacterMetadata)) (c : Char),
      (buildFontMetadata adds).character c = none ↔ c ∉ adds.map (fun p => p.1)) := by
  constructor
  · intro s fm t
    simp only [render_text_node, Option.map_eq_none']
    exact renderTextChars_eq_none_iff fm t.font_identifier t.text 0
  · intro adds c
    rw [buildFontMetadata, character_buildFontMetadata_eq_none_iff]
    simp [FontMetadata.character, FontMetadata.new]

/-- `Ordering.swap` distributes over `Ordering.then`. -/
theorem ordering_then_swap (o p : Ordering) : (o.then p).swap = o.swap.then p.swap := by
  cases o <;> rfl

/-- A lexicographic combination is `eq` exactly when both parts are. -/
theorem ordering_then_eq_iff (o p : Ordering) :
    o.then p = Ordering.eq ↔ o = Ordering.eq ∧ p = Ordering.eq := by
  cases o <;> simp [Ordering.then]

/-- A lexicographic combination is `lt` exactly when the first part is, or
the first part is `eq` and the second is `lt`. -/
theorem ordering_then_lt_iff (o p : Ordering) :
    o.then p = Ordering.lt ↔ o = Ordering.lt ∨ (o = Ordering.eq ∧ p = Ordering.lt) := by
  cases o <;> simp [Ordering.then]

/-- `cmpNat` is antisymmetric under `swap`. -/
theorem cmpNat_swap (a b : Nat) : (cmpNat a b).swap = cmpNat b a := by
  unfold cmpNat
  split
  next h =>
    rw [if_neg (by omega), if_neg (by omega)]
    rfl
  next h =>
    split
    next h2 =>
      rw [if_neg (by omega), if_pos (by omega)]
      rfl
    next h2 =>
      rw [if_pos (by omega)]
      rfl

/-- `cmpNat` returns `eq` exactly on equal numbers. -/
theorem cmpNat_eq_iff (a b : Nat) : cmpNat a b = Ordering.eq ↔ a = b := by
  unfold cmpNat
  split
  next h =>
    constructor
    · intro hc
      exact absurd hc (by decide)
    · intro hab
      omega
  next h =>
    split
    next h2 => simp [h2]
    next h2 =>
      constructor
      · intro hc
        exact absurd hc (by decide)
      · intro hab
        exact absurd hab h2

/-- `cmpNat` returns `lt` exactly on smaller numbers. -/
theorem cmpNat_lt_iff (a b : Nat) : cmpNat a b = Ordering.lt ↔ a < b := by
  unfold cmpNat
  split
  next h => simp [h]
  next h =>
    split
    next h2 =>
      constructor
      · intro hc
        exact absurd hc (by decide)
      · intro hab
        omega
    next h2 =>
      constructor
      · intro hc
        exact absurd hc (by decide)
      · intro hab
        exact absurd hab h

/-- `cmpChar` is antisymmetric under `swap`. -/
theorem cmpChar_swap (a b : Char) : (cmpChar a b).swap = cmpChar b a :=
  cmpNat_swap _ _

/-- `cmpChar` returns `eq` exactly on equal characters. -/
theorem cmpChar_eq_iff (a b : Char) : cmpChar a b = Ordering.eq ↔ a = b := by
  unfold cmpChar
  rw [cmpNat_eq_iff]
  constructor
  · intro h
    exact Char.eq_of_val_eq (UInt32.ext h)
  · intro h
    rw [h]

/-- `cmpChar` `lt` results compose transitively. -/
theorem cmpChar_lt_trans {a b c : Char} (h1 : cmpChar a b = Ordering.lt)
    (h2 : cmpChar b c = Ordering.lt) : cmpChar a c = Ordering.lt := by
  unfold cmpChar at h1 h2 ⊢
  rw [cmpNat_lt_iff] at h1 h2 ⊢
  omega

/-- `cmpCharList` is antisymmetric under `swap`. -/
theorem cmpCharList_swap : ∀ (as bs : List Char), (cmpCharList as bs).swap = cmpCharList bs as := by
  intro as
  induction as with
  | nil => intro bs; cases bs <;> rfl
  | cons a as ih =>
    intro bs
    cases bs with
    | nil => rfl
    | cons b bs =>
      simp only [cmpCharList, ordering_then_swap, cmpChar_swap, ih]

/-- `cmpCharList` returns `eq` exactly on equal lists. -/
theorem cmpCharList_eq_iff : ∀ (as bs : List Char), cmpCharList as bs = Ordering.eq ↔ as = bs := by
  intro as
  induction as with
  | nil => intro bs; cases bs <;> simp [cmpCharList]
  | cons a as ih =>
    intro bs
    cases bs with
    | nil => simp [cmpCharList]
    | cons b bs =>
      simp only [cmpCharList, ordering_then_eq_iff, cmpChar_eq_iff, ih, List.cons.injEq]

/-- `cmpCharList` `lt` results compose transitively. -/
theorem cmpCharList_lt_trans : ∀ (as bs cs : List Char),
    cmpCharList as bs = Ordering.lt → cmpCharList bs cs = Ordering.lt →
      cmpCharList as cs = Ordering.lt := by
  intro as
  induction as with
  | nil =>
    intro bs cs h1 h2
    cases bs with
    | nil => exact Ordering.noConfusion h1
    | cons b bs =>
      cases cs with
      | nil => exact Ordering.noConfusion h2
      | cons c cs => rfl
  | cons a as ih =>
    intro bs cs h1 h2
    cases bs with
    | nil => exact Ordering.noConfusion h1
    | cons b bs =>
      cases cs with
      | nil => exact Ordering.noConfusion h2
      | cons c cs =>
        simp only [cmpCharList, ordering_then_lt_iff] at h1 h2 ⊢
        rcases h1 with h1 | ⟨h1e, h1r⟩
        · rcases h2 with h2 | ⟨h2e, h2r⟩
          · exact Or.inl (cmpChar_lt_trans h1 h2)
          · have hbc : b = c := (cmpChar_eq_iff b c).mp h2e
            rw [← hbc]
            exact Or.inl h1
        · have hab : a = b := (cmpChar_eq_iff a b).mp h1e
          rcases h2 with h2 | ⟨h2e, h2r⟩
          · rw [hab]
            exact Or.inl h2
          · have hbc : b = c := (cmpChar_eq_iff b c).mp h2e
            refine Or.inr ⟨?_, ?_⟩
            · rw [cmpChar_eq_iff]
              exact hab.trans hbc
            · exact ih bs cs h1r h2r

/-- `cmpString` is antisymmetric under `swap`. -/
theorem cmpString_swap (a b : String) : (cmpString a b).swap = cmpString b a :=
  cmpCharList_swap _ _

/-- `cmpString` returns `eq` exactly on equal strings. -/
theorem cmpString_eq_iff (a b : String) : cmpString a b = Ordering.eq ↔ a = b := by
  unfold cmpString
  rw [cmpCharList_eq_iff]
  constructor
  · intro h
    cases a
    cases b
    exact congrArg String.mk h
  · intro h
    rw [h]

/-- `cmpString` `lt` results compose transitively. -/
theorem cmpString_lt_trans {a b c : String} (h1 : cmpString a b = Ordering.lt)
    (h2 : cmpString b c = Ordering.lt) : cmpString a c = Ordering.lt :=
  cmpCharList_lt_trans _ _ _ h1 h2

/-- `cmpOptString` is antisymmetric under `swap`. -/
theorem cmpOptString_swap (a b : Option String) :
    (cmpOptString a b).swap = cmpOptString b a := by
  cases a <;> cases b <;> first
    | rfl
    | exact cmpString_swap _ _

/-- `cmpOptString` returns `eq` exactly on equal options. -/
theorem cmpOptString_eq_iff (a b : Option String) :
    cmpOptString a b = Ordering.eq ↔ a = b := by
  cases a <;> cases b <;> simp [cmpOptString, cmpString_eq_iff]

/-- `cmpOptString` `lt` results compose transitively. -/
theorem cmpOptString_lt_trans {a b c : Option String}
    (h1 : cmpOptString a b = Ordering.lt) (h2 : cmpOptString b c = Ordering.lt) :
    cmpOptString a c = Ordering.lt := by
  cases a <;> cases b <;> cases c <;> simp_all [cmpOptString]
  exact cmpString_lt_trans h1 h2

/-- The derived `MeshAttributes` comparison is antisymmetric under `swap`. -/
theorem attrCmp_swap (a b : MeshAttributes) :
    (MeshAttributes.cmp a b).swap = MeshAttributes.cmp b a := by
  unfold MeshAttributes.cmp
  rw [ordering_then_swap, ordering_then_swap, cmpOptString_swap, cmpOptString_swap,
    cmpNat_swap]

/-- The derived `MeshAttributes` comparison returns `eq` exactly on equal
attribute records. -/
theorem attrCmp_eq_iff (a b : MeshAttributes) :
    MeshAttributes.cmp a b = Ordering.eq ↔ a = b := by
  unfold MeshAttributes.cmp
  rw [ordering_then_eq_iff, ordering_then_eq_iff, cmpOptString_eq_iff,
    cmpOptString_eq_iff, cmpNat_eq_iff]
  constructor
  · rintro ⟨h1, h2, h3⟩
    cases a
    cases b
    simp_all
  · rintro rfl
    exact ⟨rfl, rfl, rfl⟩

/-- The derived `MeshAttributes` comparison is reflexive. -/
theorem attrCmp_refl (a : MeshAttributes) : MeshAttributes.cmp a a = Ordering.eq :=
  (attrCmp_eq_iff a a).mpr rfl

/-- `lt` results of the derived `MeshAttributes` comparison compose
transitively. -/
theorem attrCmp_lt_trans {a b c : MeshAttributes}
    (h1 : MeshAttributes.cmp a b = Ordering.lt)
    (h2 : MeshAttributes.cmp b c = Ordering.lt) :
    MeshAttributes.cmp a c = Ordering.lt := by
  unfold MeshAttributes.cmp at h1 h2 ⊢
  rw [ordering_then_lt_iff] at h1 h2 ⊢
  rcases h1 with h1 | ⟨h1e, h1i⟩
  · rcases h2 with h2 | ⟨h2e, h2i⟩
    · exact Or.inl (cmpOptString_lt_trans h1 h2)
    · have hbc := (cmpOptString_eq_iff _ _).mp h2e
      rw [← hbc]
      exact Or.inl h1
  · have hab := (cmpOptString_eq_iff _ _).mp h1e
    rcases h2 with h2 | ⟨h2e, h2i⟩
    · rw [hab]
      exact Or.inl h2
    · have hbc := (cmpOptString_eq_iff _ _).mp h2e
      refine Or.inr ⟨(cmpOptString_eq_iff _ _).mpr (hab.trans hbc), ?_⟩
      rw [ordering_then_lt_iff] at h1i h2i ⊢
      rcases h1i with h1i | ⟨h1ie, h1in⟩
      · rcases h2i with h2i | ⟨h2ie, h2in⟩
        · exact Or.inl (cmpOptString_lt_trans h1i h2i)
        · have hbcf := (cmpOptString_eq_iff _ _).mp h2ie
          rw [← hbcf]
          exact Or.inl h1i
      · have habf := (cmpOptString_eq_iff _ _).mp h1ie
        rcases h2i with h2i | ⟨h2ie, h2in⟩
        · rw [habf]
          exact Or.inl h2i
        · have hbcf := (cmpOptString_eq_iff _ _).mp h2ie
          refine Or.inr ⟨(cmpOptString_eq_iff _ _).mpr (habf.trans hbcf), ?_⟩
          rw [cmpNat_lt_iff] at h1in h2in ⊢
          omega

/-- `meshLe` is total. -/
theorem meshLe_total : ∀ a b : Mesh, meshLe a b ∨ meshLe b a := by
  intro a b
  unfold meshLe
  by_cases h : MeshAttributes.cmp a.attributes b.attributes = Ordering.gt
  · right
    rw [← attrCmp_swap, h]
    decide
  · left
    exact h

instance : IsTotal Mesh meshLe := ⟨meshLe_total⟩

/-- `meshLe` is transitive. -/
theorem meshLe_trans : ∀ a b c : Mesh, meshLe a b → meshLe b c → meshLe a c := by
  intro a b c h1 h2
  unfold meshLe at h1 h2 ⊢
  rcases hab : MeshAttributes.cmp a.attributes b.attributes with _ | _ | _
  · rcases hbc : MeshAttributes.cmp b.attributes c.attributes with _ | _ | _
    · rw [attrCmp_lt_trans hab hbc]
      decide
    · have := (attrCmp_eq_iff _ _).mp hbc
      rw [← this, hab]
      decide
    · exact absurd hbc h2
  · have := (attrCmp_eq_iff _ _).mp hab
    rw [this]
    exact h2
  · exact absurd hab h1

instance : IsTrans Mesh meshLe := ⟨meshLe_trans⟩

/-- Inserting a mesh with `orderedInsert` places it before every mesh it
compares `gt` against; meshes skipped over therefore have strictly smaller,
hence different, attributes.  Consequently filtering by an attribute value
commutes with the insertion. -/
theorem filter_attrs_orderedInsert (x : Mesh) (k : MeshAttributes) :
    ∀ l : List Mesh,
      (List.orderedInsert meshLe x l).filter (fun m => decide (m.attributes = k)) =
        if x.attributes = k then
          x :: l.filter (fun m => decide (m.attributes = k))
        else l.filter (fun m => decide (m.attributes = k)) := by
  intro l
  induction l with
  | nil =>
    by_cases hx : x.attributes = k <;>
      simp [List.orderedInsert, List.filter, hx]
  | cons b bl ih =>
    simp only [List.orderedInsert]
    by_cases hle : meshLe x b
    · rw [if_pos hle]
      by_cases hx : x.attributes = k <;> simp [List.filter, hx]
    · rw [if_neg hle]
      have hxb : x.attributes ≠ b.attributes := by
        intro he
        apply hle
        unfold meshLe
        rw [he, attrCmp_refl]
        decide
      by_cases hx : x.attributes = k
      · have hbk : ¬ b.attributes = k := fun hbk => hxb (hx.trans hbk.symm)
        rw [List.filter_cons, List.filter_cons, ih, if_pos hx, if_pos hx]
        simp [hbk]
      · rw [List.filter_cons, List.filter_cons, ih, if_neg hx, if_neg hx]

/-- Insertion sort with `meshLe` is stable: filtering by any attribute value
yields the same subsequence before and after sorting. -/
theorem filter_attrs_insertionSort (k : MeshAttributes) :
    ∀ l : List Mesh,
      (List.insertionSort meshLe l).filter (fun m => decide (m.attributes = k)) =
        l.filter (fun m => decide (m.attributes = k)) := by
  intro l
  induction l with
  | nil => rfl
  | cons x l ih =>
    simp only [List.insertionSort]
    rw [filter_attrs_orderedInsert, List.filter_cons]
    by_cases hx : x.attributes = k
    · rw [if_pos hx, ih]
      simp [hx]
    · rw [if_neg hx, ih]
      simp [hx]

/-- C3 (amended): `sort_meshes` sorts the pending meshes by the derived
order on `MeshAttributes` — which compares `texture_identifier` first, then
`font_identifier`, then `draw_mode`, `None` sorting before `Some` — not by
`draw_mode` first; the sort is a permutation and is stable (meshes with
equal attributes keep their relative traversal order). -/
theorem sort_meshes_sorted_and_stable :
    (∀ s : GLSceneRenderer, List.Sorted meshLe (sort_meshes s).pending_meshes) ∧
    (∀ s : GLSceneRenderer, (sort_meshes s).pending_meshes.Perm s.pending_meshes) ∧
    (∀ (s : GLSceneRenderer) (k : MeshAttributes),
      (sort_meshes s).pending_meshes.filter (fun m => decide (m.attributes = k)) =
        s.pending_meshes.filter (fun m => decide (m.attributes = k))) := by
  refine ⟨?_, ?_, ?_⟩
  · intro s
    exact List.sorted_insertionSort meshLe s.pending_meshes
  · intro s
    exact List.perm_insertionSort meshLe s.pending_meshes
  · intro s k
    exact filter_attrs_insertionSort k s.pending_meshes

/-- C3 (counterexample): the claim's order compares `draw_mode` first, so it
puts `meshTexLines` (`gl::LINES = 1`, texture `"t"`) strictly before
`meshTri` (`gl::TRIANGLES = 4`, no texture); the code's sort key compares
`texture_identifier` first (`None < Some`), leaving `[meshTri, meshTexLines]`
unsorted with respect to the claimed order. -/
theorem sort_meshes_order_counterexample :
    (sort_meshes
        { pending_meshes := [meshTri, meshTexLines], pending_batches := [] }).pending_meshes =
      [meshTri, meshTexLines] ∧
    specAttrCmp meshTexLines.attributes meshTri.attributes = Ordering.lt ∧
    ¬ specMeshLe meshTri meshTexLines := by
  refine ⟨by decide, by decide, by decide⟩

/-- Folding meshes into a non-empty batch list appends batch attributes
exactly at configuration changes relative to the open (last) batch. -/
theorem batchFold_map_attrs :
    ∀ (ms : List Mesh) (bs : List RenderBatch) (last : RenderBatch),
      ((ms.foldl batchFold (bs ++ [last])).map RenderBatch.mesh_attributes) =
        bs.map RenderBatch.mesh_attributes ++
          (ms.map Mesh.attributes).destutter' (fun a b => a ≠ b) last.mesh_attributes := by
  intro ms
  induction ms with
  | nil =>
    intro bs last
    simp [List.destutter']
  | cons m ms ih =>
    intro bs last
    rw [List.foldl_cons]
    by_cases h : last.mesh_attributes = m.attributes
    · have hfold : batchFold (bs ++ [last]) m = bs ++ [last.add_mesh m] := by
        simp only [batchFold, List.getLast?_concat]
        rw [if_neg (not_not_intro h), List.dropLast_concat]
      rw [hfold, ih bs (last.add_mesh m)]
      have hattr : (last.add_mesh m).mesh_attributes = last.mesh_attributes := rfl
      simp only [hattr, List.map_cons]
      rw [List.destutter'_cons_neg _ (not_not_intro h)]
    · have hfold : batchFold (bs ++ [last]) m =
          (bs ++ [last]) ++ [(RenderBatch.new m.attributes).add_mesh m] := by
        simp only [batchFold, List.getLast?_concat]
        rw [if_pos h]
      rw [hfold, ih (bs ++ [last]) _]
      have hattr : ((RenderBatch.new m.attributes).add_mesh m).mesh_attributes =
          m.attributes := rfl
      simp only [hattr, List.map_append, List.map_cons, List.map_nil]
      rw [List.destutter'_cons_pos _ h]
      simp

/-- Starting with no open batch, the batch attribute sequence is the
adjacent-deduplication of the mesh attribute sequence: a new batch starts
exactly where the configuration changes. -/
theorem batchFold_nil_map_attrs (ms : List Mesh) :
    ((ms.foldl batchFold []).map RenderBatch.mesh_attributes) =
      (ms.map Mesh.attributes).destutter (fun a b => a ≠ b) := by
  cases ms with
  | nil => rfl
  | cons m ms =>
    rw [List.foldl_cons]
    have h2 := batchFold_map_attrs ms [] ((RenderBatch.new m.attributes).add_mesh m)
    simp only [List.nil_append, List.map_nil] at h2
    rw [show batchFold [] m = [(RenderBatch.new m.attributes).add_mesh m] from rfl, h2,
      List.map_cons, List.destutter_cons' _ _]
    rfl

/-- One `batchFold` step appends the mesh's vertices at the end of the
total vertex contents, whether it opens a new batch or extends the last. -/
theorem batchFold_step_flatten (bs : List RenderBatch) (m : Mesh) :
    ((batchFold bs m).map RenderBatch.vertex_data).flatten =
      (bs.map RenderBatch.vertex_data).flatten ++ m.vertices := by
  induction bs using List.reverseRecOn with
  | nil => simp [batchFold, RenderBatch.add_mesh, RenderBatch.new]
  | append_singleton bs' last _ =>
    by_cases h : last.mesh_attributes ≠ m.attributes
    · have hfold : batchFold (bs' ++ [last]) m =
          (bs' ++ [last]) ++ [(RenderBatch.new m.attributes).add_mesh m] := by
        simp only [batchFold, List.getLast?_concat]
        rw [if_pos h]
      rw [hfold]
      simp [RenderBatch.add_mesh, RenderBatch.new]
    · have hfold : batchFold (bs' ++ [last]) m = bs' ++ [last.add_mesh m] := by
        simp only [batchFold, List.getLast?_concat]
        rw [if_neg h, List.dropLast_concat]
      rw [hfold]
      simp [RenderBatch.add_mesh]

/-- Batching loses no geometry: the concatenated vertex contents of all
batches equal the concatenated vertices of the folded meshes, in order. -/
theorem batchFold_flatten :
    ∀ (ms : List Mesh) (bs : List RenderBatch),
      (((ms.foldl batchFold bs).map RenderBatch.vertex_data).flatten) =
        ((bs.map RenderBatch.vertex_data).flatten) ++ (ms.map Mesh.vertices).flatten := by
  intro ms
  induction ms with
  | nil =>
    intro bs
    simp
  | cons m ms ih =>
    intro bs
    rw [List.foldl_cons, ih, batchFold_step_flatten]
    simp

/-- C4: walking a mesh list with no open batch, `batch_meshes` starts a new
`RenderBatch` exactly when the current mesh's configuration differs from the
open (last) batch's configuration — the batch attribute sequence is the
adjacent-deduplication (`destutter`) of the mesh attribute sequence — while
appending every mesh's vertices in order; in particular a pending list with
configurations C1,C1,C2,C1 (C1 = default, C2 = texture `"t"`), sorted and
then batched, yields exactly 2 batches grouping the three C1 meshes and the
single C2 mesh. -/
theorem batch_meshes_starts_batch_on_config_change :
    (∀ ms : List Mesh,
      ((ms.foldl batchFold []).map RenderBatch.mesh_attributes) =
        (ms.map Mesh.attributes).destutter (fun a b => a ≠ b)) ∧
    (∀ ms : List Mesh,
      (((ms.foldl batchFold []).map RenderBatch.vertex_data).flatten) =
        (ms.map Mesh.vertices).flatten) ∧
    ((batch_meshes (sort_meshes
        { pending_meshes := [meshC1a, meshC1b, meshC2c, meshC1d],
          pending_batches := [] })).pending_batches.length = 2 ∧
      (batch_meshes (sort_meshes
        { pending_meshes := [meshC1a, meshC1b, meshC2c, meshC1d],
          pending_batches := [] })).pending_batches.map
          (fun b => (b.mesh_attributes, b.vertex_data)) =
        [(MeshAttributes.defaults,
          meshC1a.vertices ++ meshC1b.vertices ++ meshC1d.vertices),
         (MeshAttributes.forTexture "t", meshC2c.vertices)]) := by
  refine ⟨batchFold_nil_map_attrs, ?_, by decide, by decide⟩
  intro ms
  rw [batchFold_flatten ms []]
  rfl

/-- Traversal invariant: for any fuel, stack and visited set, the sequence
of rendered nodes has pairwise distinct identifiers, none of which is
already in the visited set. -/
theorem renderSceneVisits_nodup_aux :
    ∀ (g : SceneGraph) (fuel : Nat) (stack : List Nat) (visited : List String),
      ((renderSceneVisits g fuel stack visited).map SceneNode.identifier).Nodup ∧
      ∀ s ∈ (renderSceneVisits g fuel stack visited).map SceneNode.identifier,
        s ∉ visited := by
  intro g fuel
  induction fuel with
  | zero =>
    intro stack visited
    simp [renderSceneVisits]
  | succ fuel ih =>
    intro stack visited
    cases stack with
    | nil => simp [renderSceneVisits]
    | cons r rest =>
      simp only [renderSceneVisits]
      split
      next => exact ih rest visited
      next node hr =>
        split
        next hv => exact ih rest visited
        next hv =>
          have h2 := ih (node.children.reverse ++ rest) (node.identifier :: visited)
          constructor
          · simp only [List.map_cons, List.nodup_cons]
            refine ⟨?_, h2.1⟩
            intro hmem
            exact h2.2 _ hmem (List.mem_cons_self _ _)
          · intro s hs
            simp only [List.map_cons, List.mem_cons] at hs
            rcases hs with rfl | hs
            · exact hv
            · intro hsv
              exact h2.2 s hs (List.mem_cons_of_mem _ hsv)

/-- C8: for every scene graph — including graphs where a node is reachable
through several parents or through a cycle — and any number of loop
iterations, the `render_scene` traversal passes each node identifier to
`render_scene_node` at most once: the rendered identifier sequence has no
duplicates. -/
theorem render_scene_renders_each_identifier_once (g : SceneGraph) (fuel : Nat) :
    ((render_scene_visited_nodes g fuel).map SceneNode.identifier).Nodup :=
  (renderSceneVisits_nodup_aux g fuel [g.root] []).1

end TuberGL
